import Mathlib

/-!
Verification of `Info::Media::Provider`
(`Telegram/SourceFiles/info/media/info_media_provider.cpp`).

The provider is embedded shallowly: its mutable fields become a
`ProviderState` record, and every member function becomes a Lean function
from the old state (plus the external collaborators it consults) to the
new state together with the list of notifications it fires.  The
`SparseIdsMergedSlice` collaborator is kept abstract, as in the source:
only the queries the provider performs on it (`fullCount`,
`skippedBefore`, `skippedAfter`, `nearest`, `distance`) are modelled, as
record fields.
-/

namespace InfoMedia

/-- Modelled from the spec: the fixed offset separating the legacy source's
id range from the current source's range (`ServerMaxMsgId`, defined outside
this translation unit).  Its concrete value decides no claim. -/
def ServerMaxMsgId : Int := 1073741824

/-- Modelled from the spec: the default pivot, the logical "most recent"
position (`kDefaultAroundId`, defined in the provider's header). -/
def kDefaultAroundId : Int := ServerMaxMsgId - 1

/-- Modelled from the spec: the minimal window size (`kMinimalIdsLimit`,
defined in the provider's header). -/
def kMinimalIdsLimit : Nat := 16

/-- Source constant `kPreloadedScreensCount = 4`. -/
def kPreloadedScreensCount : Nat := 4

/-- Source constant
`kPreloadedScreensCountFull = kPreloadedScreensCount + 1 + kPreloadedScreensCount`. -/
def kPreloadedScreensCountFull : Nat :=
  kPreloadedScreensCount + 1 + kPreloadedScreensCount

/-- A full message id: owning peer plus message id, as in `FullMsgId`. -/
structure FullMsgId where
  peer : Nat
  msg : Int
deriving DecidableEq, Repr

/-- A `SparseIdsMergedSlice::Key`: current peer, migrated peer (0 when
absent) and the pivot universal id. -/
structure SliceKey where
  peerId : Nat
  migratedPeerId : Nat
  universalId : Int
deriving DecidableEq, Repr

/-- The provider's fixed peer configuration: `_peer->id` and, when a
migrated (legacy) history is attached, `_migrated->id`. -/
structure Peers where
  peerId : Nat
  migratedId : Option Nat
deriving DecidableEq, Repr

/-- Interface of the external `SparseIdsMergedSlice` collaborator, reduced
to the queries the provider performs on it.  `nearestTo` already composes
the source's `nearest` with `GetUniversalId`, i.e. it yields the universal
id of the entry nearest to the argument, when one exists. -/
structure MergedSlice where
  fullCount : Option Nat
  skippedBefore : Option Nat
  skippedAfter : Option Nat
  nearestTo : Int → Option Int
  distanceFn : SliceKey → SliceKey → Option Int

/-- One `_layouts` cache entry: the owned layout object (identified by the
allocation number of its creation, standing for the C++ pointer identity)
and the `stale` flag. -/
structure CachedLayout where
  handle : Nat
  stale : Bool
deriving DecidableEq, Repr

/-- Notifications fired by the provider: `_refreshed.fire({})`,
`_layoutRemoved.fire(layout)` (identified by the entry's id and handle),
and the act of issuing a refresh request via `_controller->mediaSource`
(recorded with the key's universal id and the ids limit passed). -/
inductive PEvent where
  | refreshed
  | layoutRemoved (universalId : Int) (handle : Nat)
  | refreshRequested (aroundId : Int) (limit : Nat)
deriving DecidableEq, Repr

/-- The outcome of `item->media()` queries used by `createLayout`:
`photo` models `getPhoto()` and `document` models `getFile()`. -/
structure Item where
  photo : Option Nat
  document : Option Nat
deriving DecidableEq, Repr

/-- External data session: `session().data().message(fullId)`. -/
structure Env where
  message : FullMsgId → Option Item

/-- The media type of the provider (`Storage::SharedMediaType`). -/
inductive MediaType where
  | Photo
  | GIF
  | Video
  | File
  | MusicFile
  | RoundVoiceFile
  | Link
  | RoundFile
deriving DecidableEq, Repr

/-- The provider's mutable state.  `layouts`, `universalAroundId`,
`idsLimit` and `slice` embed `_layouts`, `_universalAroundId`, `_idsLimit`
and `_slice`.  `nextHandle` is the allocation counter giving layout objects
their identity.  `viewerGen` counts `refreshViewer` calls: each call
destroys `_viewerLifetime` (disconnecting the previous subscription) and
stores a new subscription in it, so only slices delivered with the current
generation reach the handler.  `viewerIdForViewer` is the `idForViewer`
value captured by the currently subscribed handler. -/
structure ProviderState where
  layouts : List (Int × CachedLayout)
  universalAroundId : Int
  idsLimit : Nat
  slice : MergedSlice
  nextHandle : Nat
  viewerGen : Nat
  viewerIdForViewer : Int

/-- Source `Provider::isPossiblyMyPeerId`. -/
def isPossiblyMyPeerId (p : Peers) (peerId : Nat) : Prop :=
  peerId = p.peerId ∨ p.migratedId = some peerId

instance (p : Peers) (peerId : Nat) : Decidable (isPossiblyMyPeerId p peerId) := by
  unfold isPossiblyMyPeerId
  infer_instance

/-- Source `Provider::sliceKey`. -/
def sliceKey (p : Peers) (universalId : Int) : SliceKey :=
  match p.migratedId with
  | some mid => ⟨p.peerId, mid, universalId⟩
  | none =>
    if universalId < 0 then
      ⟨p.peerId, 0, universalId + ServerMaxMsgId⟩
    else
      ⟨p.peerId, 0, universalId⟩

/-- Source `Provider::computeFullId` (the source `Expects` a nonzero
argument; the arithmetic below is what it computes). -/
def computeFullId (p : Peers) (universalId : Int) : FullMsgId :=
  if 0 < universalId then
    ⟨p.peerId, universalId⟩
  else
    ⟨p.migratedId.getD p.peerId, ServerMaxMsgId + universalId⟩

/-- Modelled from the spec: the header helper `GetUniversalId(FullMsgId)`
(not part of this translation unit) — ids of the current source are taken
directly, ids of the legacy source are shifted down by the fixed offset. -/
def GetUniversalId (p : Peers) (itemId : FullMsgId) : Int :=
  if itemId.peer = p.peerId then itemId.msg else itemId.msg - ServerMaxMsgId

/-- A freshly constructed `SparseIdsMergedSlice(key)` before any data is
known: all counts unknown, no resolvable entries. -/
def freshSlice (_key : SliceKey) : MergedSlice :=
  ⟨none, none, none, fun _ => none, fun _ _ => none⟩

/-- Source `Provider::refreshViewer`: destroys `_viewerLifetime`
(invalidating the previous subscription — modelled by bumping
`viewerGen`), computes `idForViewer` from the current pivot, and issues a
`mediaSource(idForViewer, _idsLimit, _idsLimit)` request whose handler
captures `idForViewer`. -/
def refreshViewer (p : Peers) (st : ProviderState) :
    ProviderState × List PEvent :=
  let idForViewer := (sliceKey p st.universalAroundId).universalId
  ({ st with
      viewerGen := st.viewerGen + 1
      viewerIdForViewer := idForViewer },
    [PEvent.refreshRequested idForViewer st.idsLimit])

/-- The completion handler installed by `Provider::refreshViewer`: a slice
arriving on a destroyed subscription (`gen ≠ viewerGen`) never reaches the
handler; otherwise, a slice with unknown `fullCount` is discarded, and any
other slice is adopted, the pivot re-anchored to the nearest entry when
one resolves, and `_refreshed` fired once. -/
def deliverSlice (st : ProviderState) (gen : Nat) (slice : MergedSlice) :
    ProviderState × List PEvent :=
  if gen ≠ st.viewerGen then
    (st, [])
  else if slice.fullCount = none then
    (st, [])
  else
    let st1 := { st with slice := slice }
    match slice.nearestTo st.viewerIdForViewer with
    | some nearestId =>
      ({ st1 with universalAroundId := nearestId }, [PEvent.refreshed])
    | none => (st1, [PEvent.refreshed])

/-- Source `Provider::restart`. -/
def restart (p : Peers) (st : ProviderState) : ProviderState × List PEvent :=
  refreshViewer p
    { st with
        layouts := []
        universalAroundId := kDefaultAroundId
        idsLimit := kMinimalIdsLimit
        slice := freshSlice (sliceKey p kDefaultAroundId) }

/-- First-match lookup in the `_layouts` map (`_layouts.find(id)`). -/
def layoutsFind : List (Int × CachedLayout) → Int → Option CachedLayout
  | [], _ => none
  | q :: qs, id => if q.1 = id then some q.2 else layoutsFind qs id

/-- Clearing the `stale` flag of the (first) entry with the given id
(`it->second.stale = false`). -/
def setUnstale : List (Int × CachedLayout) → Int → List (Int × CachedLayout)
  | [], _ => []
  | q :: qs, id =>
    if q.1 = id then (q.1, ⟨q.2.handle, false⟩) :: qs
    else q :: setUnstale qs id

/-- Erasing the (first) entry with the given id (`_layouts.erase(i)`). -/
def eraseLayout : List (Int × CachedLayout) → Int → List (Int × CachedLayout)
  | [], _ => []
  | q :: qs, id => if q.1 = id then qs else q :: eraseLayout qs id

/-- Source `Provider::markLayoutsStale`. -/
def markLayoutsStale (st : ProviderState) : ProviderState :=
  { st with layouts := st.layouts.map fun q => (q.1, ⟨q.2.handle, true⟩) }

/-- The erase-while-iterating loop of `Provider::clearStaleLayouts`:
keeps non-stale entries in order, fires one `_layoutRemoved` per stale
entry in iteration order. -/
def sweepLoop : List (Int × CachedLayout) →
    List (Int × CachedLayout) × List PEvent
  | [] => ([], [])
  | q :: qs =>
    let r := sweepLoop qs
    if q.2.stale then (r.1, PEvent.layoutRemoved q.1 q.2.handle :: r.2)
    else (q :: r.1, r.2)

/-- Source `Provider::clearStaleLayouts`. -/
def clearStaleLayouts (st : ProviderState) : ProviderState × List PEvent :=
  let r := sweepLoop st.layouts
  ({ st with layouts := r.1 }, r.2)

/-- Source `Provider::itemRemoved`, parametrised by the removed item's
universal id. -/
def itemRemoved (st : ProviderState) (id : Int) :
    ProviderState × List PEvent :=
  match layoutsFind st.layouts id with
  | some cl =>
    ({ st with layouts := eraseLayout st.layouts id },
      [PEvent.layoutRemoved id cl.handle])
  | none => (st, [])

/-- Source `Provider::createLayout`, reduced to whether a layout object can
be built: the backing item must resolve through the data session, and the
per-type construction rule must accept it (`RoundFile` has no builder). -/
def createLayout (env : Env) (p : Peers) (universalId : Int)
    (type : MediaType) : Option Unit :=
  match env.message (computeFullId p universalId) with
  | none => none
  | some item =>
    match type with
    | .Photo => item.photo.map fun _ => ()
    | .GIF => item.document.map fun _ => ()
    | .Video => item.document.map fun _ => ()
    | .File => item.document.map fun _ => ()
    | .MusicFile => item.document.map fun _ => ()
    | .RoundVoiceFile => item.document.map fun _ => ()
    | .Link => some ()
    | .RoundFile => none

/-- Source `Provider::getLayout`: return the cached handle (clearing its
stale flag), or create, insert and return a fresh one; absent backing
entries yield no layout and no insertion. -/
def getLayout (env : Env) (p : Peers) (st : ProviderState) (universalId : Int)
    (type : MediaType) : Option Nat × ProviderState :=
  match layoutsFind st.layouts universalId with
  | some cl =>
    (some cl.handle, { st with layouts := setUnstale st.layouts universalId })
  | none =>
    match createLayout env p universalId type with
    | none => (none, st)
    | some _ =>
      (some st.nextHandle,
        { st with
            layouts := st.layouts ++ [(universalId, ⟨st.nextHandle, false⟩)]
            nextHandle := st.nextHandle + 1 })

/-- The sequence of `getLayout` touches performed between
`markLayoutsStale` and `clearStaleLayouts` during `fillSections`. -/
def touchAll (env : Env) (p : Peers) (type : MediaType)
    (st : ProviderState) (S : List Int) : ProviderState :=
  S.foldl (fun s id => (getLayout env p s id type).2) st

/-- The opaque full-selection marker (`FullSelection`); selection values
are modelled as naturals, with this reserved value meaning "fully
selected". -/
def FullSelection : Nat := 4294967295

/-- First-match lookup in the selection map, keyed by universal id. -/
def selFind : List (Int × Nat) → Int → Option Nat
  | [], _ => none
  | q :: qs, id => if q.1 = id then some q.2 else selFind qs id

/-- Modelled from the spec: the helper `ChangeItemSelection` (not part of
this translation unit) inserts or overwrites the selection marker for the
given entry. -/
def ChangeItemSelection : List (Int × Nat) → Int → Nat → List (Int × Nat)
  | [], id, v => [(id, v)]
  | q :: qs, id, v =>
    if q.1 = id then (id, v) :: qs else q :: ChangeItemSelection qs id v

/-- Source `Provider::applyDragSelection`, with the selection map keyed by
the universal ids of its items and the two layout-cache/selection loops
translated directly. -/
def applyDragSelection (layouts : List (Int × CachedLayout))
    (selected : List (Int × Nat)) (fromUid : Int) (skipFrom : Bool)
    (tillUid : Int) (skipTill : Bool) : List (Int × Nat) :=
  let fromId := fromUid - (if skipFrom then 1 else 0)
  let tillId := tillUid - (if skipTill then 0 else 1)
  let kept := selected.filter fun q => !(fromId < q.1 || q.1 ≤ tillId)
  layouts.foldl
    (fun sel q =>
      if q.1 ≤ fromId && tillId < q.1 then
        ChangeItemSelection sel q.1 FullSelection
      else sel)
    kept

/-- The memento collaborator's fields touched by `saveState` and
`restoreState`; `idsLimit = 0` means "no window-size field present", and
the scroll anchor's global identity is modelled as a natural. -/
structure Memento where
  aroundId : FullMsgId
  idsLimit : Nat
  scrollTopItem : Nat
  scrollTopShift : Int
deriving DecidableEq, Repr

/-- Source `Provider::saveState`: `scrollItem` is `scrollState.item`
(its global id when present), `shift` is `scrollState.shift`. -/
def saveState (p : Peers) (st : ProviderState) (m : Memento)
    (scrollItem : Option Nat) (shift : Int) : Memento :=
  match scrollItem with
  | some g =>
    if st.universalAroundId ≠ kDefaultAroundId then
      { aroundId := computeFullId p st.universalAroundId
        idsLimit := st.idsLimit
        scrollTopItem := g
        scrollTopShift := shift }
    else m
  | none => m

/-- Source `Provider::restoreState`: `lookupGlobal` models
`MessageByGlobalId`; the third component records the argument the
scroll-restoration callback was invoked with (`none` when it was not
invoked). -/
def restoreState (p : Peers) (lookupGlobal : Nat → Option Nat)
    (st : ProviderState) (m : Memento) :
    ProviderState × List PEvent × Option (Option Nat × Int) :=
  if m.idsLimit ≠ 0 then
    if isPossiblyMyPeerId p m.aroundId.peer then
      let st1 := { st with
        idsLimit := m.idsLimit
        universalAroundId := GetUniversalId p m.aroundId }
      let r := refreshViewer p st1
      (r.1, r.2, some (lookupGlobal m.scrollTopItem, m.scrollTopShift))
    else (st, [], none)
  else (st, [], none)

/-- The `preloadAroundItem` lambda inside `Provider::checkPreload`,
parametrised by the heuristic quantities computed there: reload when the
window size is below `preloadIdsLimitMin`, else query the slice distance
(`none` models the fatal `Assert` on an undefined distance) and reload
when its absolute value reaches `minUniversalIdDelta`. -/
def preloadAroundItem (p : Peers) (preloadIdsLimitMin preloadIdsLimit
    minUniversalIdDelta : Nat) (st : ProviderState) (universalId : Int) :
    Option (ProviderState × List PEvent) :=
  if st.idsLimit < preloadIdsLimitMin then
    some (refreshViewer p
      { st with idsLimit := preloadIdsLimit, universalAroundId := universalId })
  else
    match st.slice.distanceFn (sliceKey p st.universalAroundId)
        (sliceKey p universalId) with
    | none => none
    | some delta =>
      if minUniversalIdDelta ≤ delta.natAbs then
        some (refreshViewer p
          { st with
              idsLimit := preloadIdsLimit
              universalAroundId := universalId })
      else some (st, [])

/-- Source `Provider::checkPreload`.  `minItemHeight` stands for the
out-of-scope `MinItemHeight(_type, visibleWidth)` computation and
`preloadIfLessThanScreens` for the configured constant
`kPreloadIfLessThanScreens` defined outside this translation unit.
`topId`/`bottomId` are the universal ids of the top/bottom visible
layouts.  `none` models the fatal `Assert` inside `preloadAroundItem`. -/
def checkPreload (p : Peers)
    (visibleHeight minItemHeight preloadIfLessThanScreens : Nat)
    (st : ProviderState) (topId bottomId : Int)
    (preloadTop preloadBottom : Bool) :
    Option (ProviderState × List PEvent) :=
  let preloadedHeight := kPreloadedScreensCountFull * visibleHeight
  let preloadedCount := preloadedHeight / minItemHeight
  let preloadIdsLimitMin := preloadedCount / 2 + 1
  let preloadIdsLimit := preloadIdsLimitMin + visibleHeight / minItemHeight
  let topLoaded := st.slice.skippedAfter == some 0
  let bottomLoaded := st.slice.skippedBefore == some 0
  let minScreenDelta := kPreloadedScreensCount - preloadIfLessThanScreens
  let minUniversalIdDelta := (minScreenDelta * visibleHeight) / minItemHeight
  if preloadTop && !topLoaded then
    preloadAroundItem p preloadIdsLimitMin preloadIdsLimit
      minUniversalIdDelta st topId
  else if preloadBottom && !bottomLoaded then
    preloadAroundItem p preloadIdsLimitMin preloadIdsLimit
      minUniversalIdDelta st bottomId
  else some (st, [])

/-! Concrete fixtures used by the witness theorems. -/

/-- A peer configuration with an attached migrated history. -/
def peersA : Peers := ⟨100, some 50⟩

/-- A slice with all counts known and total answers to queries. -/
def sliceKnownA : MergedSlice :=
  ⟨some 5, some 0, some 0, fun _ => some 7, fun _ _ => some 3⟩

/-- A provider state holding two cached layouts. -/
def stA : ProviderState :=
  ⟨[(10, ⟨0, false⟩), (11, ⟨1, false⟩)], 20, 16, sliceKnownA, 2, 1, 20⟩

/-- A provider state with an all-unknown slice and no cached layouts. -/
def stB : ProviderState :=
  ⟨[], 20, 16, freshSlice (sliceKey peersA 20), 0, 0, 20⟩

/-! Helper lemmas shared by the claim theorems. -/

theorem sweepLoop_eq (ls : List (Int × CachedLayout)) :
    sweepLoop ls = (ls.filter fun q => !q.2.stale,
      (ls.filter fun q => q.2.stale).map
        fun q => PEvent.layoutRemoved q.1 q.2.handle) := by
  induction ls with
  | nil => rfl
  | cons q qs ih =>
    cases h : q.2.stale <;> simp [sweepLoop, h, ih]

/-- C1: a refresh completion delivered to the controller with unknown full
count changes nothing and fires no notification; one with a known full
count is adopted as the current slice, fires the refreshed notification
exactly once, and re-anchors the pivot to the nearest resolvable entry
around the originally requested pivot id (leaving the pivot unchanged when
none resolves). -/
theorem deliverSlice_discard_or_adopt (st : ProviderState)
    (slice : MergedSlice) :
    (slice.fullCount = none → deliverSlice st st.viewerGen slice = (st, []))
    ∧ (slice.fullCount ≠ none →
        (deliverSlice st st.viewerGen slice).2 = [PEvent.refreshed]
        ∧ (deliverSlice st st.viewerGen slice).1.slice = slice
        ∧ (slice.nearestTo st.viewerIdForViewer = none →
            (deliverSlice st st.viewerGen slice).1.universalAroundId
              = st.universalAroundId)
        ∧ (∀ n, slice.nearestTo st.viewerIdForViewer = some n →
            (deliverSlice st st.viewerGen slice).1.universalAroundId = n)) := by
  constructor
  · intro h
    simp [deliverSlice, h]
  · intro h
    rcases hn : slice.nearestTo st.viewerIdForViewer with _ | n <;>
      simp [deliverSlice, h, hn]

/-- Witness for the refresh-completion theorem at concrete inputs. -/
theorem deliverSlice_discard_or_adopt_witness :
    deliverSlice stB stB.viewerGen (freshSlice (sliceKey peersA 0))
      = (stB, [])
    ∧ (deliverSlice stA stA.viewerGen sliceKnownA).2 = [PEvent.refreshed]
    ∧ (deliverSlice stA stA.viewerGen sliceKnownA).1.universalAroundId = 7 :=
  ⟨(deliverSlice_discard_or_adopt stB (freshSlice (sliceKey peersA 0))).1 rfl,
    ((deliverSlice_discard_or_adopt stA sliceKnownA).2 (by decide)).1,
    ((deliverSlice_discard_or_adopt stA sliceKnownA).2
      (by decide)).2.2.2 7 rfl⟩

/-- C2 counterexample: after a second refresh is issued, the completion of
the prior in-flight refresh (arriving on the now-destroyed first
subscription) carries a known full count and is nevertheless not adopted:
the state is unchanged and nothing fires. -/
theorem staleCompletion_not_adopted_cex :
    sliceKnownA.fullCount = some 5
    ∧ deliverSlice (refreshViewer peersA (refreshViewer peersA stB).1).1
        ((refreshViewer peersA stB).1.viewerGen) sliceKnownA
      = ((refreshViewer peersA (refreshViewer peersA stB).1).1, [])
    ∧ ((refreshViewer peersA (refreshViewer peersA stB).1).1).slice.fullCount
        ≠ some 5 :=
  ⟨rfl, rfl, by decide⟩

/-- C2 amended: issuing a new refresh destroys the previous refresh
subscription, so a prior in-flight refresh's completion is dropped
(no state change, no notification) even when it carries a known full
count; only completions of the latest issued refresh reach the handler. -/
theorem staleCompletion_dropped (st : ProviderState) (gen : Nat)
    (slice : MergedSlice) (h : gen ≠ st.viewerGen) :
    deliverSlice st gen slice = (st, [])
    ∧ ∀ p : Peers, (refreshViewer p st).1.viewerGen ≠ st.viewerGen := by
  constructor
  · simp [deliverSlice, h]
  · intro p
    simp [refreshViewer]

/-- Witness for the dropped-stale-completion theorem. -/
theorem staleCompletion_dropped_witness :
    deliverSlice stA 0 sliceKnownA = (stA, [])
    ∧ (refreshViewer peersA stA).1.viewerGen ≠ stA.viewerGen :=
  ⟨(staleCompletion_dropped stA 0 sliceKnownA (by decide)).1,
    (staleCompletion_dropped stA 0 sliceKnownA (by decide)).2 peersA⟩

/-- C10: restart clears the whole layout cache and emits only the refresh
request — no layout-removed notification for the evicted entries — while
the stale sweep fires one removal notification per swept entry and
external removal of a cached entry fires exactly one removal
notification. -/
theorem restart_no_removal_events (p : Peers) (st : ProviderState) :
    (restart p st).1.layouts = []
    ∧ (restart p st).2
        = [PEvent.refreshRequested
            (sliceKey p kDefaultAroundId).universalId kMinimalIdsLimit]
    ∧ (∀ id h, PEvent.layoutRemoved id h ∉ (restart p st).2)
    ∧ (∀ st2 : ProviderState, (clearStaleLayouts st2).2
        = (st2.layouts.filter fun q => q.2.stale).map
            fun q => PEvent.layoutRemoved q.1 q.2.handle)
    ∧ (∀ (st2 : ProviderState) (id : Int) (cl : CachedLayout),
        layoutsFind st2.layouts id = some cl →
        (itemRemoved st2 id).2 = [PEvent.layoutRemoved id cl.handle]) := by
  refine ⟨rfl, rfl, ?_, ?_, ?_⟩
  · intro id h
    simp [restart, refreshViewer]
  · intro st2
    simp [clearStaleLayouts, sweepLoop_eq]
  · intro st2 id cl h
    simp [itemRemoved, h]

/-- Witness for the restart-notification theorem at concrete inputs. -/
theorem restart_no_removal_events_witness :
    (restart peersA stA).1.layouts = []
    ∧ (itemRemoved stA 10).2 = [PEvent.layoutRemoved 10 0] :=
  ⟨(restart_no_removal_events peersA stA).1,
    (restart_no_removal_events peersA stA).2.2.2.2 stA 10 ⟨0, false⟩ rfl⟩

/-- C4: when the window size check does not already demand a reload and
the slice reports the distance between the pivot's key and the candidate's
key as undefined, `checkPreload` hits the fatal assertion (modelled as
`none`): it neither continues nor falls back to treating the situation as
reload-needed. -/
theorem checkPreload_distance_assert (p : Peers) (vh mih pls : Nat)
    (st : ProviderState) (topId bottomId : Int) (pb : Bool)
    (htop : (st.slice.skippedAfter == some 0) = false)
    (hlim : kPreloadedScreensCountFull * vh / mih / 2 + 1 ≤ st.idsLimit)
    (hd : st.slice.distanceFn (sliceKey p st.universalAroundId)
        (sliceKey p topId) = none) :
    checkPreload p vh mih pls st topId bottomId true pb = none := by
  simp [checkPreload, htop, preloadAroundItem, Nat.not_lt.mpr hlim, hd]

/-- Witness for the fatal-assertion theorem at concrete inputs. -/
theorem checkPreload_distance_assert_witness :
    checkPreload peersA 110 99 2 stB 25 15 true false = none :=
  checkPreload_distance_assert peersA 110 99 2 stB 25 15 false rfl
    (by decide) rfl

/-- C3: with the distance between the pivot's key and the candidate's key
defined, `checkPreload` (evaluating around the top candidate) issues a
reload — window size set to `preloadIdsLimit`, pivot set to the candidate,
refresh issued — exactly when the current window size is strictly below
`preloadIdsLimitMin` or the absolute distance is at least
`minUniversalIdDelta` (inclusive boundary); otherwise it leaves the state
unchanged and fires nothing. -/
theorem checkPreload_reload_iff (p : Peers) (vh mih pls : Nat)
    (st : ProviderState) (topId bottomId : Int) (pb : Bool) (d : Int)
    (htop : (st.slice.skippedAfter == some 0) = false)
    (hd : st.slice.distanceFn (sliceKey p st.universalAroundId)
        (sliceKey p topId) = some d) :
    checkPreload p vh mih pls st topId bottomId true pb =
      if st.idsLimit < kPreloadedScreensCountFull * vh / mih / 2 + 1
          ∨ (kPreloadedScreensCount - pls) * vh / mih ≤ d.natAbs then
        some (refreshViewer p
          { st with
              idsLimit := kPreloadedScreensCountFull * vh / mih / 2 + 1
                + vh / mih
              universalAroundId := topId })
      else some (st, []) := by
  by_cases h1 : st.idsLimit < kPreloadedScreensCountFull * vh / mih / 2 + 1
  · simp [checkPreload, htop, preloadAroundItem, h1]
  · by_cases h2 : (kPreloadedScreensCount - pls) * vh / mih ≤ d.natAbs
    · simp [checkPreload, htop, preloadAroundItem, h1, h2, hd]
    · simp [checkPreload, htop, preloadAroundItem, h1, h2, hd]

/-- A slice whose distance query always answers 1. -/
def sliceDistOne : MergedSlice :=
  ⟨some 9, some 3, some 4, fun _ => none, fun _ _ => some 1⟩

/-- A slice whose distance query always answers 2. -/
def sliceDistTwo : MergedSlice :=
  ⟨some 9, some 3, some 4, fun _ => none, fun _ _ => some 2⟩

/-- Window size 5, below the limit 6 computed from the witness
geometry. -/
def stWinFive : ProviderState := ⟨[], 20, 5, sliceDistOne, 0, 0, 20⟩

/-- Window size 7 with distance exactly at the boundary 2. -/
def stWinSevenFar : ProviderState := ⟨[], 20, 7, sliceDistTwo, 0, 0, 20⟩

/-- Window size 7 with distance one unit below the boundary. -/
def stWinSevenNear : ProviderState := ⟨[], 20, 7, sliceDistOne, 0, 0, 20⟩

/-- Witness for the reload-boundary theorem: with geometry giving
`preloadIdsLimitMin = 6` and `minUniversalIdDelta = 2`, a window of size 5
reloads regardless of distance, size 7 at distance exactly 2 reloads
(inclusive boundary), and size 7 at distance 1 does not. -/
theorem checkPreload_reload_iff_witness :
    checkPreload peersA 110 99 2 stWinFive 25 15 true false
      = some (refreshViewer peersA
          { stWinFive with idsLimit := 7, universalAroundId := 25 })
    ∧ checkPreload peersA 110 99 2 stWinSevenFar 25 15 true false
      = some (refreshViewer peersA
          { stWinSevenFar with idsLimit := 7, universalAroundId := 25 })
    ∧ checkPreload peersA 110 99 2 stWinSevenNear 25 15 true false
      = some (stWinSevenNear, []) := by
  refine ⟨?_, ?_, ?_⟩
  · rw [checkPreload_reload_iff peersA 110 99 2 stWinFive 25 15 false 1
      rfl rfl]
    rfl
  · rw [checkPreload_reload_iff peersA 110 99 2 stWinSevenFar 25 15 false 2
      rfl rfl]
    rfl
  · rw [checkPreload_reload_iff peersA 110 99 2 stWinSevenNear 25 15 false 1
      rfl rfl]
    rfl

/-- C7: `checkPreload` treats the top edge as fully loaded exactly when
`skippedAfter = 0` and the bottom edge exactly when `skippedBefore = 0`,
and gives the top priority: with a top preload requested and the top not
fully loaded it evaluates reload necessity around the top visible item;
only otherwise, with a bottom preload requested and the bottom not fully
loaded, around the bottom visible item; and when neither applies it does
nothing. -/
theorem checkPreload_edge_priority (p : Peers) (vh mih pls : Nat)
    (st : ProviderState) (topId bottomId : Int) (pt pb : Bool) :
    (pt = true → (st.slice.skippedAfter == some 0) = false →
      checkPreload p vh mih pls st topId bottomId pt pb
        = preloadAroundItem p (kPreloadedScreensCountFull * vh / mih / 2 + 1)
            (kPreloadedScreensCountFull * vh / mih / 2 + 1 + vh / mih)
            ((kPreloadedScreensCount - pls) * vh / mih) st topId)
    ∧ ((pt = false ∨ (st.slice.skippedAfter == some 0) = true) →
        pb = true → (st.slice.skippedBefore == some 0) = false →
        checkPreload p vh mih pls st topId bottomId pt pb
          = preloadAroundItem p
              (kPreloadedScreensCountFull * vh / mih / 2 + 1)
              (kPreloadedScreensCountFull * vh / mih / 2 + 1 + vh / mih)
              ((kPreloadedScreensCount - pls) * vh / mih) st bottomId)
    ∧ ((pt = false ∨ (st.slice.skippedAfter == some 0) = true) →
        (pb = false ∨ (st.slice.skippedBefore == some 0) = true) →
        checkPreload p vh mih pls st topId bottomId pt pb = some (st, [])) := by
  refine ⟨?_, ?_, ?_⟩
  · intro hpt htop
    simp [checkPreload, hpt, htop]
  · intro h1 hpb hbot
    rcases h1 with h1 | h1 <;> simp [checkPreload, h1, hpb, hbot]
  · intro h1 h2
    rcases h1 with h1 | h1 <;> rcases h2 with h2 | h2 <;>
      simp [checkPreload, h1, h2]

/-- Witness for the edge-priority theorem: with both edges pending and both
preloads requested the top is evaluated; with only the bottom requested the
bottom is evaluated; with neither requested nothing happens. -/
theorem checkPreload_edge_priority_witness :
    checkPreload peersA 110 99 2 stWinSevenFar 25 15 true true
      = preloadAroundItem peersA 6 7 2 stWinSevenFar 25
    ∧ checkPreload peersA 110 99 2 stWinSevenFar 25 15 false true
      = preloadAroundItem peersA 6 7 2 stWinSevenFar 15
    ∧ checkPreload peersA 110 99 2 stWinSevenFar 25 15 false false
      = some (stWinSevenFar, []) :=
  ⟨(checkPreload_edge_priority peersA 110 99 2 stWinSevenFar 25 15
      true true).1 rfl rfl,
    (checkPreload_edge_priority peersA 110 99 2 stWinSevenFar 25 15
      false true).2.1 (Or.inl rfl) rfl rfl,
    (checkPreload_edge_priority peersA 110 99 2 stWinSevenFar 25 15
      false false).2.2 (Or.inl rfl) (Or.inl rfl)⟩

theorem layoutsFind_setUnstale_self (ls : List (Int × CachedLayout))
    (id : Int) :
    layoutsFind (setUnstale ls id) id
      = (layoutsFind ls id).map fun cl => ⟨cl.handle, false⟩ := by
  induction ls with
  | nil => rfl
  | cons q qs ih =>
    by_cases h : q.1 = id <;> simp [setUnstale, layoutsFind, h, ih]

theorem layoutsFind_append_right (ls rs : List (Int × CachedLayout))
    (id : Int) (h : layoutsFind ls id = none) :
    layoutsFind (ls ++ rs) id = layoutsFind rs id := by
  induction ls with
  | nil => rfl
  | cons q qs ih =>
    by_cases hq : q.1 = id
    · simp [layoutsFind, hq] at h
    · simp only [layoutsFind, hq] at h
      simp only [List.cons_append, layoutsFind, hq, if_false]
      exact ih h

theorem keys_setUnstale (ls : List (Int × CachedLayout)) (id : Int) :
    (setUnstale ls id).map Prod.fst = ls.map Prod.fst := by
  induction ls with
  | nil => rfl
  | cons q qs ih =>
    by_cases h : q.1 = id <;> simp [setUnstale, h, ih]

theorem layoutsFind_eq_none (ls : List (Int × CachedLayout)) (id : Int)
    (h : layoutsFind ls id = none) : id ∉ ls.map Prod.fst := by
  induction ls with
  | nil => simp
  | cons q qs ih =>
    by_cases hq : q.1 = id
    · simp [layoutsFind, hq] at h
    · simp only [layoutsFind, hq, if_false] at h
      simp only [List.map_cons, List.mem_cons]
      rintro (rfl | hmem)
      · exact hq rfl
      · exact ih h hmem

theorem createLayout_roundFile (env : Env) (p : Peers) (id : Int) :
    createLayout env p id MediaType.RoundFile = none := by
  unfold createLayout
  cases env.message (computeFullId p id) <;> rfl

/-- C9: get-or-create is idempotent — a second call with the same id and no
intervening sweep yields the same layout handle — it keeps the cache free
of duplicate ids, and when the id is not cached and either its backing
entry does not resolve or the provider's media kind is the reserved
round-file kind, it returns no layout and inserts nothing. -/
theorem getLayout_idempotent_spec (env : Env) (p : Peers)
    (st : ProviderState) (id : Int) (ty : MediaType) :
    (getLayout env p (getLayout env p st id ty).2 id ty).1
        = (getLayout env p st id ty).1
    ∧ ((st.layouts.map Prod.fst).Nodup →
        ((getLayout env p st id ty).2.layouts.map Prod.fst).Nodup)
    ∧ (layoutsFind st.layouts id = none →
        env.message (computeFullId p id) = none →
        getLayout env p st id ty = (none, st))
    ∧ (layoutsFind st.layouts id = none →
        getLayout env p st id MediaType.RoundFile = (none, st)) := by
  rcases hf : layoutsFind st.layouts id with _ | cl
  · rcases hc : createLayout env p id ty with _ | u
    · refine ⟨?_, ?_, ?_, ?_⟩
      · simp [getLayout, hf, hc]
      · intro hnd
        simpa [getLayout, hf, hc] using hnd
      · intro _ _
        simp [getLayout, hf, hc]
      · intro _
        simp [getLayout, hf, createLayout_roundFile]
    · refine ⟨?_, ?_, ?_, ?_⟩
      · have hfind : layoutsFind
            (st.layouts ++ [(id, ⟨st.nextHandle, false⟩)]) id
            = some ⟨st.nextHandle, false⟩ := by
          rw [layoutsFind_append_right st.layouts _ id hf]
          simp [layoutsFind]
        simp [getLayout, hf, hc, hfind]
      · intro hnd
        have hmem := layoutsFind_eq_none st.layouts id hf
        simp [getLayout, hf, hc, List.nodup_append, hnd, hmem]
      · intro _ hmsg
        have : createLayout env p id ty = none := by
          unfold createLayout
          rw [hmsg]
        rw [this] at hc
        cases hc
      · intro _
        simp [getLayout, hf, createLayout_roundFile]
  · refine ⟨?_, ?_, ?_, ?_⟩
    · have hfind : layoutsFind (setUnstale st.layouts id) id
          = some ⟨cl.handle, false⟩ := by
        rw [layoutsFind_setUnstale_self, hf]
        rfl
      simp [getLayout, hf, hfind]
    · intro hnd
      simpa [getLayout, hf, keys_setUnstale] using hnd
    · intro h
      simp [hf] at h
    · intro h
      simp [hf] at h

/-- Environment resolving id 5 to an item carrying a photo and a document,
and nothing else. -/
def envA : Env :=
  ⟨fun fid => if fid = ⟨100, 5⟩ then some ⟨some 3, some 4⟩ else none⟩

/-- Witness for the get-or-create theorem: creating a layout for id 5 and
asking again returns the same handle; id 6 does not resolve, and the
round-file kind builds nothing. -/
theorem getLayout_idempotent_spec_witness :
    (getLayout envA peersA (getLayout envA peersA stB 5 .Photo).2 5 .Photo).1
        = (getLayout envA peersA stB 5 .Photo).1
    ∧ ((getLayout envA peersA stA 10 .Photo).2.layouts.map Prod.fst).Nodup
    ∧ getLayout envA peersA stB 6 .Photo = (none, stB)
    ∧ getLayout envA peersA stB 5 .RoundFile = (none, stB) :=
  ⟨(getLayout_idempotent_spec envA peersA stB 5 .Photo).1,
    (getLayout_idempotent_spec envA peersA stA 10 .Photo).2.1 (by decide),
    (getLayout_idempotent_spec envA peersA stB 6 .Photo).2.2.1 rfl (by decide),
    (getLayout_idempotent_spec envA peersA stB 5 .RoundFile).2.2.2 rfl⟩

/-- C8: restoration adopts the snapshot's pivot and window size, invokes
the scroll callback with the resolved anchor and shift, and issues a
refresh exactly when the snapshot carries a window-size field and its
anchor id plausibly belongs to one of the provider's two sources;
otherwise it changes nothing and raises no error; and a save followed by a
restore on a fresh provider with the same source identities reproduces the
saved pivot id and window size and passes the saved anchor and shift to
the callback. -/
theorem restoreState_spec (p : Peers) (lg : Nat → Option Nat)
    (st : ProviderState) (m : Memento) :
    (m.idsLimit = 0 → restoreState p lg st m = (st, [], none))
    ∧ (¬ isPossiblyMyPeerId p m.aroundId.peer →
        restoreState p lg st m = (st, [], none))
    ∧ (m.idsLimit ≠ 0 → isPossiblyMyPeerId p m.aroundId.peer →
        restoreState p lg st m
          = ((refreshViewer p { st with
                idsLimit := m.idsLimit
                universalAroundId := GetUniversalId p m.aroundId }).1,
              (refreshViewer p { st with
                idsLimit := m.idsLimit
                universalAroundId := GetUniversalId p m.aroundId }).2,
              some (lg m.scrollTopItem, m.scrollTopShift)))
    ∧ (∀ (st2 : ProviderState) (g : Nat) (shift : Int) (m0 : Memento),
        st.universalAroundId ≠ kDefaultAroundId →
        st.idsLimit ≠ 0 →
        (0 < st.universalAroundId ∨
          ∃ mid, p.migratedId = some mid ∧ mid ≠ p.peerId) →
        (restoreState p lg st2
            (saveState p st m0 (some g) shift)).1.universalAroundId
            = st.universalAroundId
        ∧ (restoreState p lg st2
            (saveState p st m0 (some g) shift)).1.idsLimit = st.idsLimit
        ∧ (restoreState p lg st2
            (saveState p st m0 (some g) shift)).2.2
            = some (lg g, shift)) := by
  refine ⟨?_, ?_, ?_, ?_⟩
  · intro h
    simp [restoreState, h]
  · intro h
    by_cases h0 : m.idsLimit = 0 <;> simp [restoreState, h, h0]
  · intro h0 h1
    simp [restoreState, h0, h1, refreshViewer]
  · intro st2 g shift m0 hdef hlim hsign
    have hsave : saveState p st m0 (some g) shift
        = { aroundId := computeFullId p st.universalAroundId
            idsLimit := st.idsLimit
            scrollTopItem := g
            scrollTopShift := shift } := by
      simp [saveState, hdef]
    have hpeer : isPossiblyMyPeerId p (computeFullId p st.universalAroundId).peer := by
      unfold computeFullId isPossiblyMyPeerId
      rcases hsign with hpos | ⟨mid, hmid, _⟩
      · simp [hpos]
      · by_cases hp : 0 < st.universalAroundId <;> simp [hp, hmid]
    have hround : GetUniversalId p (computeFullId p st.universalAroundId)
        = st.universalAroundId := by
      unfold computeFullId GetUniversalId
      rcases hsign with hpos | ⟨mid, hmid, hne⟩
      · simp [hpos]
      · by_cases hp : 0 < st.universalAroundId
        · simp [hp]
        · simp only [hp, if_false, hmid, Option.getD_some]
          rw [if_neg hne]
          omega
    rw [hsave] at *
    simp only [restoreState, hlim, hpeer, if_true, ne_eq,
      not_false_iff, ite_true, if_pos]
    refine ⟨?_, ?_, ?_⟩ <;> simp [refreshViewer, hround]

/-- A provider state anchored away from the default pivot, used by the
snapshot round-trip witness. -/
def stSaved : ProviderState := ⟨[], 20, 16, sliceKnownA, 0, 0, 20⟩

/-- Witness for the snapshot theorem: a foreign snapshot is ignored, and
the round trip through a memento reproduces pivot 20 and window size 16
and hands the saved anchor and shift to the callback. -/
theorem restoreState_spec_witness :
    restoreState peersA some stB ⟨⟨7, 20⟩, 16, 3, 2⟩ = (stB, [], none)
    ∧ (restoreState peersA some stB
        (saveState peersA stSaved ⟨⟨0, 0⟩, 0, 0, 0⟩ (some 3) 2)).1.universalAroundId
        = stSaved.universalAroundId
    ∧ (restoreState peersA some stB
        (saveState peersA stSaved ⟨⟨0, 0⟩, 0, 0, 0⟩ (some 3) 2)).1.idsLimit
        = stSaved.idsLimit
    ∧ (restoreState peersA some stB
        (saveState peersA stSaved ⟨⟨0, 0⟩, 0, 0, 0⟩ (some 3) 2)).2.2
        = some (some 3, 2) :=
  ⟨(restoreState_spec peersA some stB ⟨⟨7, 20⟩, 16, 3, 2⟩).2.1 (by decide),
    ((restoreState_spec peersA some stSaved ⟨⟨0, 0⟩, 0, 0, 0⟩).2.2.2 stB 3 2
      ⟨⟨0, 0⟩, 0, 0, 0⟩ (by decide) (by decide) (Or.inl (by decide))).1,
    ((restoreState_spec peersA some stSaved ⟨⟨0, 0⟩, 0, 0, 0⟩).2.2.2 stB 3 2
      ⟨⟨0, 0⟩, 0, 0, 0⟩ (by decide) (by decide) (Or.inl (by decide))).2.1,
    ((restoreState_spec peersA some stSaved ⟨⟨0, 0⟩, 0, 0, 0⟩).2.2.2 stB 3 2
      ⟨⟨0, 0⟩, 0, 0, 0⟩ (by decide) (by decide) (Or.inl (by decide))).2.2⟩

theorem selFind_change (sel : List (Int × Nat)) (id j : Int) (v : Nat) :
    selFind (ChangeItemSelection sel id v) j
      = if j = id then some v else selFind sel j := by
  induction sel with
  | nil =>
    by_cases h : j = id
    · simp [ChangeItemSelection, selFind, h]
    · simp [ChangeItemSelection, selFind, h, Ne.symm h]
  | cons q qs ih =>
    by_cases hq : q.1 = id
    · simp only [ChangeItemSelection, if_pos hq, selFind]
      split_ifs <;> first | rfl | omega
    · simp only [ChangeItemSelection, if_neg hq, selFind]
      rw [ih]
      split_ifs <;> first | rfl | omega

theorem selFind_dragLoop (fromId tillId : Int)
    (ls : List (Int × CachedLayout)) (sel : List (Int × Nat)) (j : Int) :
    selFind (ls.foldl
        (fun s q => if q.1 ≤ fromId && tillId < q.1
          then ChangeItemSelection s q.1 FullSelection else s) sel) j
      = if j ∈ ls.map Prod.fst ∧ j ≤ fromId ∧ tillId < j
        then some FullSelection
        else selFind sel j := by
  induction ls generalizing sel with
  | nil => simp
  | cons q qs ih =>
    simp only [List.foldl_cons]
    by_cases hin : q.1 ≤ fromId ∧ tillId < q.1
    · have hc : (q.1 ≤ fromId && tillId < q.1) = true := by
        simp [hin.1, hin.2]
      rw [if_pos hc, ih, selFind_change]
      by_cases hj : j = q.1
      · subst hj
        simp [hin.1, hin.2]
      · simp only [if_neg hj]
        exact if_congr (by simp [hj]) rfl rfl
    · have hc : (q.1 ≤ fromId && tillId < q.1) = false := by
        rcases not_and_or.mp hin with h | h <;> simp [h]
      rw [if_neg (by simp [hc]), ih]
      by_cases hj : j = q.1
      · subst hj
        simp [hin]
      · exact if_congr (by simp [hj]) rfl rfl

theorem selFind_filter_outside (sel : List (Int × Nat))
    (fromId tillId j : Int) (h : fromId < j ∨ j ≤ tillId) :
    selFind (sel.filter fun q => !(fromId < q.1 || q.1 ≤ tillId)) j
      = none := by
  induction sel with
  | nil => rfl
  | cons q qs ih =>
    by_cases hq : q.1 = j
    · have hb : (!(fromId < q.1 || q.1 ≤ tillId)) = false := by
        rcases h with h | h <;> simp [hq, h]
      simp only [List.filter_cons, hb, Bool.false_eq_true, if_false]
      exact ih
    · by_cases hb : (!(fromId < q.1 || q.1 ≤ tillId)) = true
      · simp only [List.filter_cons, hb, if_true, selFind, hq, if_false]
        exact ih
      · rw [Bool.not_eq_true] at hb
        simp only [List.filter_cons, hb, Bool.false_eq_true, if_false]
        exact ih

/-- Layout cache with entries 10 through 14, for the drag-selection
witness. -/
def exLayouts : List (Int × CachedLayout) :=
  [(10, ⟨0, false⟩), (11, ⟨1, false⟩), (12, ⟨2, false⟩),
    (13, ⟨3, false⟩), (14, ⟨4, false⟩)]

/-- Prior selection of ids 10, 11 and 14, for the drag-selection
witness. -/
def exSelected : List (Int × Nat) := [(10, 1), (11, 2), (14, 3)]

/-- C6: drag selection normalizes the interval by the two skip flags,
removes every selection-map entry outside the half-open interval
`(tillId, fromId]`, marks every cached id inside it fully selected, and on
cached ids `{10..14}` with `fromId = 13` (not skipped) and `tillId = 11`
(skipped) leaves exactly ids 12 and 13 fully selected, dropping prior
selections of 10, 11 and 14. -/
theorem applyDragSelection_spec :
    (∀ (layouts : List (Int × CachedLayout)) (selected : List (Int × Nat))
        (fromUid tillUid : Int) (skipFrom skipTill : Bool) (j : Int),
      ((fromUid - (if skipFrom then 1 else 0) < j ∨
          j ≤ tillUid - (if skipTill then 0 else 1)) →
        selFind (applyDragSelection layouts selected fromUid skipFrom
          tillUid skipTill) j = none)
      ∧ (j ∈ layouts.map Prod.fst →
          j ≤ fromUid - (if skipFrom then 1 else 0) →
          tillUid - (if skipTill then 0 else 1) < j →
          selFind (applyDragSelection layouts selected fromUid skipFrom
            tillUid skipTill) j = some FullSelection))
    ∧ applyDragSelection exLayouts exSelected 13 false 11 true
        = [(12, FullSelection), (13, FullSelection)] := by
  constructor
  · intro layouts selected fromUid tillUid skipFrom skipTill j
    constructor
    · intro hout
      unfold applyDragSelection
      rw [selFind_dragLoop]
      rw [if_neg (by omega)]
      exact selFind_filter_outside selected _ _ j hout
    · intro hmem h1 h2
      unfold applyDragSelection
      rw [selFind_dragLoop]
      rw [if_pos ⟨hmem, h1, h2⟩]
  · rfl

/-- Witness for the drag-selection theorem: id 14 lies outside the
normalized interval and ends unselected; cached id 12 lies inside and ends
fully selected. -/
theorem applyDragSelection_spec_witness :
    selFind (applyDragSelection exLayouts exSelected 13 false 11 true) 14
        = none
    ∧ selFind (applyDragSelection exLayouts exSelected 13 false 11 true) 12
        = some FullSelection :=
  ⟨(applyDragSelection_spec.1 exLayouts exSelected 13 11 false true 14).1
      (Or.inl (by decide)),
    (applyDragSelection_spec.1 exLayouts exSelected 13 11 false true 12).2
      (by decide) (by decide) (by decide)⟩

/-- Stale flags after a touch pass: every entry whose id was touched has
its stale flag cleared, all others keep theirs. -/
def staleAfter (S : List Int) : List (Int × CachedLayout) →
    List (Int × CachedLayout)
  | [] => []
  | q :: qs =>
    (q.1, ⟨q.2.handle, if q.1 ∈ S then false else q.2.stale⟩)
      :: staleAfter S qs

theorem staleAfter_nil (ls : List (Int × CachedLayout)) :
    staleAfter [] ls = ls := by
  induction ls with
  | nil => rfl
  | cons q qs ih =>
    show (q.1, (⟨q.2.handle, if q.1 ∈ ([] : List Int) then false
        else q.2.stale⟩ : CachedLayout)) :: staleAfter [] qs = q :: qs
    rw [ih, if_neg (List.not_mem_nil q.1)]

theorem staleAfter_append (S : List Int)
    (ls rs : List (Int × CachedLayout)) :
    staleAfter S (ls ++ rs) = staleAfter S ls ++ staleAfter S rs := by
  induction ls with
  | nil => rfl
  | cons q qs ih =>
    simp only [List.cons_append, staleAfter]
    exact congrArg _ ih

theorem staleAfter_skip (S : List Int) (a : Int)
    (ls : List (Int × CachedLayout)) (h : a ∉ ls.map Prod.fst) :
    staleAfter (a :: S) ls = staleAfter S ls := by
  induction ls with
  | nil => rfl
  | cons q qs ih =>
    simp only [List.map_cons, List.mem_cons, not_or] at h
    have hcond : (q.1 ∈ a :: S) ↔ (q.1 ∈ S) := by
      simp only [List.mem_cons]
      constructor
      · rintro (h1 | h1)
        · exact absurd h1.symm h.1
        · exact h1
      · exact Or.inr
    simp only [staleAfter]
    rw [ih h.2, if_congr hcond rfl rfl]

theorem staleAfter_touch (S : List Int) (a : Int)
    (ls : List (Int × CachedLayout)) :
    staleAfter S (ls.map fun q =>
        if q.1 = a then (q.1, ⟨q.2.handle, false⟩) else q)
      = staleAfter (a :: S) ls := by
  induction ls with
  | nil => rfl
  | cons q qs ih =>
    simp only [List.map_cons, staleAfter]
    rw [ih]
    by_cases hq : q.1 = a
    · rw [if_pos hq]
      have h1 : ((q.1, (⟨q.2.handle, false⟩ : CachedLayout)).1 ∈ S)
          ↔ (q.1 ∈ S) := Iff.rfl
      have h2 : q.1 ∈ a :: S := by
        simp [hq]
      rw [if_pos h2]
      rw [if_congr h1 rfl rfl]
      rw [ite_self]
    · rw [if_neg hq]
      have hcond : (q.1 ∈ a :: S) ↔ (q.1 ∈ S) := by
        simp only [List.mem_cons]
        constructor
        · rintro (h1 | h1)
          · exact absurd h1 hq
          · exact h1
        · exact Or.inr
      rw [if_congr hcond.symm rfl rfl]

theorem keys_map_of_fst (ls : List (Int × CachedLayout))
    (f : Int × CachedLayout → Int × CachedLayout)
    (h : ∀ q, (f q).1 = q.1) :
    (ls.map f).map Prod.fst = ls.map Prod.fst := by
  induction ls with
  | nil => rfl
  | cons q qs ih =>
    simp only [List.map_cons, ih, h]

theorem layoutsFind_none_of_not_mem (ls : List (Int × CachedLayout))
    (id : Int) (h : id ∉ ls.map Prod.fst) : layoutsFind ls id = none := by
  induction ls with
  | nil => rfl
  | cons q qs ih =>
    simp only [List.map_cons, List.mem_cons, not_or] at h
    simp only [layoutsFind]
    rw [if_neg (fun hq => h.1 hq.symm)]
    exact ih h.2

theorem map_touch_of_not_mem (ls : List (Int × CachedLayout)) (id : Int)
    (h : id ∉ ls.map Prod.fst) :
    (ls.map fun q => if q.1 = id then (q.1, ⟨q.2.handle, false⟩) else q)
      = ls := by
  induction ls with
  | nil => rfl
  | cons q qs ih =>
    simp only [List.map_cons, List.mem_cons, not_or] at h
    simp only [List.map_cons]
    rw [if_neg (fun hq => h.1 hq.symm), ih h.2]

theorem setUnstale_eq_map (ls : List (Int × CachedLayout)) (id : Int)
    (h : (ls.map Prod.fst).Nodup) :
    setUnstale ls id
      = ls.map fun q => if q.1 = id then (q.1, ⟨q.2.handle, false⟩) else q := by
  induction ls with
  | nil => rfl
  | cons q qs ih =>
    simp only [List.map_cons, List.nodup_cons] at h
    simp only [setUnstale, List.map_cons]
    by_cases hq : q.1 = id
    · rw [if_pos hq, if_pos hq, map_touch_of_not_mem qs id (hq ▸ h.1)]
    · rw [if_neg hq, if_neg hq, ih h.2]

theorem touchAll_layouts (env : Env) (p : Peers) (ty : MediaType)
    (S : List Int) :
    ∀ st : ProviderState, (st.layouts.map Prod.fst).Nodup →
    ∃ ns : List (Int × CachedLayout),
      (touchAll env p ty st S).layouts = staleAfter S st.layouts ++ ns
      ∧ ∀ q ∈ ns, q.2.stale = false := by
  induction S with
  | nil =>
    intro st _
    refine ⟨[], ?_, by simp⟩
    simp [touchAll, staleAfter_nil]
  | cons a S ih =>
    intro st hnd
    have hstep : touchAll env p ty st (a :: S)
        = touchAll env p ty (getLayout env p st a ty).2 S := rfl
    rcases hf : layoutsFind st.layouts a with _ | cl
    · rcases hc : createLayout env p a ty with _ | u
      · have hlay : (getLayout env p st a ty).2 = st := by
          simp [getLayout, hf, hc]
        obtain ⟨ns, h1, h2⟩ := ih st hnd
        refine ⟨ns, ?_, h2⟩
        rw [hstep, hlay, h1,
          staleAfter_skip S a st.layouts (layoutsFind_eq_none _ _ hf)]
      · have hlay : (getLayout env p st a ty).2.layouts
            = st.layouts ++ [(a, ⟨st.nextHandle, false⟩)] := by
          simp [getLayout, hf, hc]
        have hnd2 : (((getLayout env p st a ty).2).layouts.map
            Prod.fst).Nodup := by
          rw [hlay]
          simp only [List.map_append, List.nodup_append]
          refine ⟨hnd, by simp, ?_⟩
          intro x hx
          simp only [List.map_cons, List.map_nil, List.mem_singleton]
          intro hxa
          exact absurd (hxa ▸ hx) (layoutsFind_eq_none _ _ hf)
        obtain ⟨ns, h1, h2⟩ := ih _ hnd2
        refine ⟨staleAfter S [(a, ⟨st.nextHandle, false⟩)] ++ ns, ?_, ?_⟩
        · rw [hstep, h1, hlay, staleAfter_append, List.append_assoc,
            staleAfter_skip S a st.layouts (layoutsFind_eq_none _ _ hf)]
        · intro q hq
          rcases List.mem_append.mp hq with hq | hq
          · simp only [staleAfter, List.mem_singleton] at hq
            rw [hq]
            exact ite_self false
          · exact h2 q hq
    · have hmem : a ∈ st.layouts.map Prod.fst := by
        by_contra hmem
        rw [(layoutsFind_none_of_not_mem _ _ hmem : layoutsFind
          st.layouts a = none)] at hf
        cases hf
      have hlay : (getLayout env p st a ty).2.layouts
          = st.layouts.map fun q =>
              if q.1 = a then (q.1, ⟨q.2.handle, false⟩) else q := by
        simp [getLayout, hf, setUnstale_eq_map st.layouts a hnd]
      have hnd2 : (((getLayout env p st a ty).2).layouts.map
          Prod.fst).Nodup := by
        rw [hlay, keys_map_of_fst _ _ ?_]
        · exact hnd
        · intro q
          by_cases hq : q.1 = a <;> simp [hq]
      obtain ⟨ns, h1, h2⟩ := ih _ hnd2
      refine ⟨ns, ?_, h2⟩
      rw [hstep, h1, hlay, staleAfter_touch]

theorem filter_stale_staleAfter_marked (S : List Int)
    (ls : List (Int × CachedLayout)) :
    (staleAfter S (ls.map fun q => (q.1, ⟨q.2.handle, true⟩))).filter
        (fun q => q.2.stale)
      = (ls.filter fun q => decide (q.1 ∉ S)).map
          fun q => ((q.1, ⟨q.2.handle, true⟩) : Int × CachedLayout) := by
  induction ls with
  | nil => rfl
  | cons q qs ih =>
    simp only [List.map_cons, staleAfter, List.filter_cons]
    by_cases hq : q.1 ∈ S
    · simp [hq, ih]
    · simp [hq, ih]

theorem filter_unstale_staleAfter_marked (S : List Int)
    (ls : List (Int × CachedLayout)) :
    (staleAfter S (ls.map fun q => (q.1, ⟨q.2.handle, true⟩))).filter
        (fun q => !q.2.stale)
      = (ls.filter fun q => decide (q.1 ∈ S)).map
          fun q => ((q.1, ⟨q.2.handle, false⟩) : Int × CachedLayout) := by
  induction ls with
  | nil => rfl
  | cons q qs ih =>
    simp only [List.map_cons, staleAfter, List.filter_cons]
    by_cases hq : q.1 ∈ S
    · simp [hq, ih]
    · simp [hq, ih]

theorem filter_stale_nil (ns : List (Int × CachedLayout))
    (h : ∀ q ∈ ns, q.2.stale = false) :
    ns.filter (fun q => q.2.stale) = [] := by
  induction ns with
  | nil => rfl
  | cons q qs ih =>
    simp only [List.filter_cons, h q (List.mem_cons_self q qs),
      Bool.false_eq_true, if_false]
    exact ih fun r hr => h r (List.mem_cons_of_mem _ hr)

/-- C5: for a bracketed visible-set rebuild — mark all stale, touch a set S
of ids through get-or-create, sweep — the removal notifications are exactly
one per previously cached entry whose id is not in S (so no id in S is
reported), and every previously cached id in S survives the sweep. -/
theorem markSweep_evicts_untouched (env : Env) (p : Peers) (ty : MediaType)
    (st : ProviderState) (S : List Int)
    (hnd : (st.layouts.map Prod.fst).Nodup) :
    (clearStaleLayouts (touchAll env p ty (markLayoutsStale st) S)).2
      = (st.layouts.filter fun q => decide (q.1 ∉ S)).map
          (fun q => PEvent.layoutRemoved q.1 q.2.handle)
    ∧ ∀ q ∈ st.layouts, q.1 ∈ S →
        q.1 ∈ ((clearStaleLayouts
            (touchAll env p ty (markLayoutsStale st) S)).1.layouts.map
          Prod.fst) := by
  have hkeys : ((markLayoutsStale st).layouts.map Prod.fst).Nodup := by
    simp only [markLayoutsStale]
    rw [keys_map_of_fst st.layouts
      (fun q => (q.1, ⟨q.2.handle, true⟩)) (fun q => rfl)]
    exact hnd
  obtain ⟨ns, hlay, hns⟩ :=
    touchAll_layouts env p ty S (markLayoutsStale st) hkeys
  have hmark : (markLayoutsStale st).layouts
      = st.layouts.map fun q => (q.1, ⟨q.2.handle, true⟩) := rfl
  rw [hmark] at hlay
  constructor
  · show (sweepLoop
        (touchAll env p ty (markLayoutsStale st) S).layouts).2 = _
    rw [hlay, sweepLoop_eq]
    simp only [List.filter_append]
    rw [filter_stale_staleAfter_marked, filter_stale_nil ns hns,
      List.append_nil, List.map_map]
    rfl
  · intro q hq hqS
    show q.1 ∈ ((sweepLoop
        (touchAll env p ty (markLayoutsStale st) S).layouts).1.map Prod.fst)
    rw [hlay, sweepLoop_eq]
    simp only [List.filter_append, List.map_append, List.mem_append]
    left
    rw [filter_unstale_staleAfter_marked, List.map_map]
    exact List.mem_map.mpr ⟨q, List.mem_filter.mpr ⟨hq, by simp [hqS]⟩, rfl⟩

/-- A provider state caching ids 1, 2 and 3, for the mark/sweep witness. -/
def stMS : ProviderState :=
  ⟨[(1, ⟨0, false⟩), (2, ⟨1, false⟩), (3, ⟨2, false⟩)], 20, 16,
    sliceKnownA, 3, 0, 20⟩

/-- Witness for the mark/sweep theorem: touching only id 2 evicts and
reports exactly ids 1 and 3, while id 2 survives. -/
theorem markSweep_evicts_untouched_witness :
    (clearStaleLayouts (touchAll envA peersA .Photo
        (markLayoutsStale stMS) [2])).2
      = [PEvent.layoutRemoved 1 0, PEvent.layoutRemoved 3 2]
    ∧ 2 ∈ ((clearStaleLayouts (touchAll envA peersA .Photo
        (markLayoutsStale stMS) [2])).1.layouts.map Prod.fst) := by
  refine ⟨?_, ?_⟩
  · rw [(markSweep_evicts_untouched envA peersA .Photo stMS [2]
      (by decide)).1]
    decide
  · exact (markSweep_evicts_untouched envA peersA .Photo stMS [2]
      (by decide)).2 (2, ⟨1, false⟩) (by decide) (by decide)

end InfoMedia
